import Mathlib

/- Shallow embedding of the label field extraction engine of
   src/Analyze_Your_Data.py.  Text is modelled as a list of characters; the
   Python regular expressions of the source are hand-compiled into explicit
   scanning functions that reproduce their leftmost / greedy / lazy matching
   behaviour on the character classes involved.  The mutable result dict of
   the source is modelled as an insertion-ordered association list. -/

namespace AnalyzeYourData

abbrev LC := List Char

/-- Characters matched by the Python regex class backslash-s (ASCII range),
which is also the set stripped by str.strip(). -/
def isPySpace (c : Char) : Bool :=
  c == ' ' || c == '\t' || c == '\n' || c == '\r' || c == '\x0b' || c == '\x0c'

/-- ASCII letters, the regex class A-Za-z. -/
def isAsciiAlpha (c : Char) : Bool := c.isUpper || c.isLower

/-- Python regex word character (ASCII fragment): letters, digits, underscore. -/
def isWordChar (c : Char) : Bool := isAsciiAlpha c || c.isDigit || c == '_'

/-- A word boundary holds to the left of a position whose predecessor is
this character (for patterns whose first character is a word character). -/
def prevNonWord : Option Char → Bool
  | none => true
  | some c => !(isWordChar c)

/-- A word boundary holds after n characters of s (for patterns whose last
character is a word character): the next character is absent or non-word. -/
def boundaryAfter (s : LC) (n : Nat) : Bool :=
  match s.get? n with
  | none => true
  | some c => !(isWordChar c)

/-- Case-insensitive literal prefix test (re.I on ASCII). -/
def ciPrefixOf : LC → LC → Bool
  | [], _ => true
  | _ :: _, [] => false
  | p :: ps, c :: cs => (p.toLower == c.toLower) && ciPrefixOf ps cs

def lowerL (l : LC) : LC := l.map Char.toLower

/-- Python str.strip(): drop whitespace from both ends. -/
def pyStrip (l : LC) : LC :=
  ((l.dropWhile isPySpace).reverse.dropWhile isPySpace).reverse

/-- Leftmost occurrence index of needle in hay (Python str.find). -/
def subFindAux (needle : LC) : LC → Nat → Option Nat
  | [], i => if needle.isPrefixOf [] then some i else none
  | c :: rest, i =>
    if needle.isPrefixOf (c :: rest) then some i
    else subFindAux needle rest (i + 1)

def subFind (hay needle : LC) : Option Nat := subFindAux needle hay 0

/-- Python str.find(needle, start): leftmost occurrence at or after start. -/
def strFindFrom (hay needle : LC) (start : Nat) : Option Nat :=
  (subFind (hay.drop start) needle).map (fun j => j + start)

/-- Python str.replace for a non-empty needle: replace every non-overlapping
occurrence, scanning left to right.  The fuel argument is the length of the
remaining text, which bounds the recursion. -/
def pyReplaceAux (needle repl : LC) : Nat → LC → LC
  | 0, hay => hay
  | _ + 1, [] => []
  | fuel + 1, c :: rest =>
    if needle ≠ [] ∧ needle.isPrefixOf (c :: rest) then
      repl ++ pyReplaceAux needle repl fuel ((c :: rest).drop needle.length)
    else
      c :: pyReplaceAux needle repl fuel rest

def pyReplace (hay needle repl : LC) : LC := pyReplaceAux needle repl hay.length hay

/-- Python str.splitlines restricted to the line breaks that occur here:
newline, carriage return, and the pair carriage return + newline (one
break).  The flag records that the previous character was a carriage
return, so that a directly following newline is part of the same break. -/
def splitLinesAux (afterCR : Bool) (cur : LC) : LC → List LC
  | [] => if cur = [] then [] else [cur.reverse]
  | c :: rest =>
    if afterCR ∧ c = '\n' then splitLinesAux false cur rest
    else if c = '\n' then cur.reverse :: splitLinesAux false [] rest
    else if c = '\r' then cur.reverse :: splitLinesAux true [] rest
    else splitLinesAux false (c :: cur) rest

def splitLinesL (l : LC) : List LC := splitLinesAux false [] l

/-- Python str.split() with no argument: split on runs of whitespace,
producing no empty words. -/
def pySplitAux (cur : LC) : LC → List LC
  | [] => if cur = [] then [] else [cur.reverse]
  | c :: rest =>
    if isPySpace c then
      if cur = [] then pySplitAux [] rest
      else cur.reverse :: pySplitAux [] rest
    else pySplitAux (c :: cur) rest

def pySplit (l : LC) : List LC := pySplitAux [] l

/-- Python " ".join. -/
def joinSpace (ls : List LC) : LC := List.intercalate [' '] ls

/-- The regex substitution sub(r"backslash-s{2,}", " ", _): every run of two
or more whitespace characters becomes one space; a single whitespace
character is left as it is.  Fuel-bounded by the length of the text. -/
def collapseWsAux : Nat → LC → LC
  | 0, l => l
  | _ + 1, [] => []
  | fuel + 1, c :: rest =>
    if isPySpace c then
      match rest.takeWhile isPySpace with
      | [] => c :: collapseWsAux fuel rest
      | _ :: _ =>
        ' ' :: collapseWsAux fuel (rest.dropWhile isPySpace)
    else c :: collapseWsAux fuel rest

def collapseWs (l : LC) : LC := collapseWsAux l.length l

/- ---------- the result mapping (Python dict) ---------- -/

abbrev Record := List (String × String)

/-- Python dict lookup: value of the first (unique) binding of the key. -/
def rget : Record → String → Option String
  | [], _ => none
  | (k, v) :: r, key => if k = key then some v else rget r key

/-- Python dict assignment d[k] = v: update the existing binding in place,
or append a new binding at the end. -/
def dinsert : Record → String → String → Record
  | [], key, v => [(key, v)]
  | (k, w) :: r, key, v =>
    if k = key then (key, v) :: r else (k, w) :: dinsert r key v

/- ---------- CONFIG: EXPECTED_COLUMNS (src lines 15-18) ---------- -/

def EXPECTED_COLUMNS : List String :=
  ["purchase_order_no", "invoice_no", "order_date", "invoice_date", "customer",
   "address", "product", "hsn", "sku", "size", "color", "qty", "gross_amount",
   "total_amount", "added_at"]

/- ---------- clean_amt (src lines 43-44) ---------- -/

def clean_amt (s : String) : String :=
  if s.data = [] then s
  else String.mk (pyStrip (pyReplace (pyReplace (pyReplace s.data
    "Rs.".data []) "Rs".data []) ",".data []))

/- ---------- find_block (src lines 46-61) ---------- -/

/-- The first start token (in list order) that occurs anywhere in the
lowered text, with the index of its leftmost occurrence. -/
def firstFindTok (tl : LC) : List LC → Option Nat
  | [] => none
  | t :: ts =>
    match subFind tl (lowerL t) with
    | some i => some i
    | none => firstFindTok tl ts

/-- end_idx of find_block: the fold over end tokens of the minimum of their
leftmost occurrences at or after startIdx, starting from the text length. -/
def endFoldIdx (tl : LC) (endToks : List LC) (startIdx len : Nat) : Nat :=
  endToks.foldl (fun e tok =>
    match strFindFrom tl (lowerL tok) startIdx with
    | some j => min e j
    | none => e) len

def find_block (text : LC) (startToks endToks : List LC) : Option LC :=
  let tl := lowerL text
  match firstFindTok tl startToks with
  | none => none
  | some si =>
    some ((text.drop si).take (endFoldIdx tl endToks si text.length - si))

/- ---------- clean_line_prefixes (src lines 63-69) ---------- -/

/-- The anchored substitution sub with pattern caret (Prepaid: or COD:)
followed by backslash-s star, flags re.I: remove the label (Prepaid tried
first) and the following whitespace from the start of the line. -/
def stripPayPrefix (l : LC) : LC :=
  if ciPrefixOf "Prepaid:".data l then (l.drop 8).dropWhile isPySpace
  else if ciPrefixOf "COD:".data l then (l.drop 4).dropWhile isPySpace
  else l

/-- Case-insensitive removal of every occurrence of the word w that is
delimited by word boundaries on both sides (the substitutions on
Destination Code and Return Code).  The scan carries the previous original
character to decide the left boundary; fuel is the remaining length. -/
def subWordCIAux (w : LC) : Option Char → Nat → LC → LC
  | _, 0, s => s
  | _, _ + 1, [] => []
  | prev, fuel + 1, c :: rest =>
    if prevNonWord prev && ciPrefixOf w (c :: rest)
        && boundaryAfter (c :: rest) w.length then
      subWordCIAux w ((c :: rest).get? (w.length - 1)) fuel
        ((c :: rest).drop w.length)
    else c :: subWordCIAux w (some c) fuel rest

def subWordCI (w l : LC) : LC := subWordCIAux w none l.length l

def clean_line_prefixes (l : LC) : LC :=
  pyStrip (subWordCI "Return Code".data
    (subWordCI "Destination Code".data
      (pyReplace (stripPayPrefix l) "Do not collect cash".data [])))

/- ---------- extract_customer_block (src lines 71-136) ---------- -/

def cust_start_tokens : List String :=
  ["Customer Address", "Bill To / Ship To", "BILL TO / SHIP TO", "BILL TO",
   "SHIP TO", "BILL TO / SHIP TO", "BILL TO / SHIP TO"]

def cust_end_tokens : List String :=
  ["If undelivered", "Sold by", "Sold by :", "GSTIN", "Purchase Order No",
   "Description", "Product Details", "Product Details", "Invoice No",
   "Invoice Date"]

/-- The service-label test of src line 82: the cleaned line starts
(case-insensitively) with one of the courier / service words. -/
def serviceNoiseLine (nl : LC) : Bool :=
  ["delhivery", "pickup", "destination code", "return code",
   "if undelivered"].any (fun w => ciPrefixOf w.data nl)

/-- Does one of Pickup / Destination Code / Return Code start here with a
word boundary after it?  Used by the trailing-noise truncation of src
line 92, whose pattern removes the word and everything after it. -/
def noiseWordHere (s : LC) : Bool :=
  ["Pickup", "Destination Code", "Return Code"].any
    (fun w => ciPrefixOf w.data s && boundaryAfter s w.data.length)

def truncNoiseAux : Option Char → LC → LC
  | _, [] => []
  | prev, c :: rest =>
    if prevNonWord prev && noiseWordHere (c :: rest) then []
    else c :: truncNoiseAux (some c) rest

/-- src line 92: sub with pattern word-boundary (Pickup or Destination Code
or Return Code) word-boundary dot-star dollar, flags re.I, then strip. -/
def truncNoise (l : LC) : LC := pyStrip (truncNoiseAux none l)

/-- A 6-digit run with word boundaries on both sides starts here. -/
def pinHere (s : LC) : Bool :=
  ((s.take 6).length == 6) && (s.take 6).all Char.isDigit && boundaryAfter s 6

/-- search of the pattern word-boundary backslash-d{6} word-boundary. -/
def hasPinAux : Option Char → LC → Bool
  | _, [] => false
  | prev, c :: rest =>
    (prevNonWord prev && pinHere (c :: rest)) || hasPinAux (some c) rest

def hasPin (l : LC) : Bool := hasPinAux none l

/-- match of the pattern caret ([A-Za-z.- backslash-s &]+) backslash-s+
backslash-d at the start of cand (the "name glued to house number" rule,
src line 109).  With R the maximal prefix run of class characters, the
regex backtracking succeeds exactly when the character at R is a digit and
the one before it is whitespace; the greedy group is then the first R-1
characters. -/
def nameClassChar (c : Char) : Bool :=
  isAsciiAlpha c || c == '.' || c == '-' || isPySpace c || c == '&'

def nameGlue (cand : LC) : Option LC :=
  let R := (cand.takeWhile nameClassChar).length
  if 2 ≤ R
      ∧ (match cand.get? R with | some d => d.isDigit | none => false) = true
      ∧ (match cand.get? (R - 1) with | some p => isPySpace p | none => false) = true
  then some (cand.take (R - 1)) else none

/-- The name-inference loop of src lines 106-116 over the lines up to and
including the postal-code line. -/
def inferNameLoop : List LC → Option LC
  | [] => none
  | cand :: rest =>
    match nameGlue cand with
    | some g => some (pyStrip g)
    | none =>
      if (pySplit cand).length ≤ 8 ∧ cand.any isAsciiAlpha then some cand
      else inferNameLoop rest

/-- src line 119-120: text of the first retained line before its first
comma, stripped. -/
def commaFallback (cleaned : List LC) : LC :=
  pyStrip ((cleaned.headD []).takeWhile (fun c => c ≠ ','))

structure CustRec where
  customer : String
  address : String
deriving DecidableEq, Repr

/-- Final sanitization, src lines 129-136. -/
def finishCust (customer0 address0 : LC) : CustRec :=
  let customer := pyStrip (stripPayPrefix customer0)
  let address :=
    if customer ≠ [] ∧ (subFind address0 customer).isSome then
      pyStrip (pyReplace address0 customer [])
    else address0
  let address := pyStrip (collapseWs address)
  let customer := if customer = [] then "NA".data else customer
  let address := if address = [] then "NA".data else address
  ⟨String.mk customer, String.mk address⟩

def extract_customer_block (text : LC) : CustRec :=
  match find_block text (cust_start_tokens.map String.data)
      (cust_end_tokens.map String.data) with
  | none => ⟨"NA", "NA"⟩
  | some block =>
    if block = [] then ⟨"NA", "NA"⟩ else
    let lines := ((splitLinesL block).map pyStrip).filter (fun l => l ≠ [])
    let cleaned0 := (lines.map clean_line_prefixes).filter
      (fun nl => !(serviceNoiseLine nl) && nl ≠ [])
    if cleaned0 = [] then ⟨"NA", "NA"⟩ else
    let cleaned := cleaned0.map truncNoise
    match cleaned.findIdx? hasPin with
    | some pinIdx =>
      let customer :=
        match inferNameLoop (cleaned.take (pinIdx + 1)) with
        | some c => if c = [] then commaFallback cleaned else c
        | none => commaFallback cleaned
      let address := pyStrip (joinSpace (cleaned.take (pinIdx + 1)))
      finishCust customer address
    | none =>
      let customer := cleaned.headD []
      let address :=
        if 1 < cleaned.length then joinSpace (cleaned.drop 1)
        else cleaned.headD []
      finishCust customer address

/- ---------- purchase order number (src lines 145-159) ---------- -/

/-- Attempt of the pattern Purchase Order No backslash-.? backslash-s*
[:-]? backslash-s* ([0-9_]+) (flags re.I) at the start of s.  The optional
dot, separator and whitespace classes are disjoint from the capture class,
so the greedy scan needs no backtracking here. -/
def poLabelAt (s : LC) : Option LC :=
  if ciPrefixOf "Purchase Order No".data s then
    let t1 := s.drop "Purchase Order No".length
    let t1 := match t1 with
      | '.' :: r => r
      | _ => t1
    let t2 := t1.dropWhile isPySpace
    let t3 := match t2 with
      | c :: r => if c = ':' ∨ c = '-' then r.dropWhile isPySpace else t2
      | [] => t2
    let cap := t3.takeWhile (fun c => c.isDigit || c == '_')
    if cap = [] then none else some cap
  else none

/-- Leftmost match: re.search tries every start position in turn. -/
def poSearchAux : LC → Option LC
  | [] => none
  | s@(_ :: rest) => poLabelAt s <|> poSearchAux rest

def poSearch (text : LC) : Option LC := poSearchAux text

/-- findall of word-boundary backslash-d{12,24} word-boundary: a maximal
digit run of length 12 to 24 delimited by word boundaries; scanning resumes
after each match, carrying the previous original character. -/
def longNumsAux : Option Char → Nat → LC → List LC
  | _, 0, _ => []
  | _, _ + 1, [] => []
  | prev, fuel + 1, c :: rest =>
    let s := c :: rest
    let run := s.takeWhile Char.isDigit
    if prevNonWord prev && (12 ≤ run.length && run.length ≤ 24)
        && boundaryAfter s run.length then
      run :: longNumsAux (s.get? (run.length - 1)) fuel (s.drop run.length)
    else longNumsAux (some c) fuel rest

def longNums (text : LC) : List LC := longNumsAux none text.length text

/- ---------- invoice number (src lines 161-164) ---------- -/

/-- Tail of the Invoice No pattern: backslash-s* [:-]? backslash-s*
([^ backslash-s,\n]+), with the regex backtracking made explicit: when the
separator is consumed but no capture character follows, the engine retries
with the separator itself starting the capture. -/
def invCapture (t : LC) : Option LC :=
  let ok : Char → Bool := fun c => !(isPySpace c) && c != ','
  let t2 := t.dropWhile isPySpace
  match t2 with
  | [] => none
  | c :: r =>
    if c = ':' ∨ c = '-' then
      let cap := (r.dropWhile isPySpace).takeWhile ok
      if cap ≠ [] then some cap
      else
        let cap2 := t2.takeWhile ok
        if cap2 = [] then none else some cap2
    else
      let cap := t2.takeWhile ok
      if cap = [] then none else some cap

/-- Attempt of Invoice No backslash-.? ... at the start of s; when the
consumed dot leads to failure the engine retries with the dot left for the
capture class (which accepts it). -/
def invLabelAt (s : LC) : Option LC :=
  if ciPrefixOf "Invoice No".data s then
    let t1 := s.drop "Invoice No".length
    match t1 with
    | '.' :: r => invCapture r <|> invCapture t1
    | _ => invCapture t1
  else none

def invSearchAux : LC → Option LC
  | [] => none
  | s@(_ :: rest) => invLabelAt s <|> invSearchAux rest

def invSearch (text : LC) : Option LC := invSearchAux text

/- ---------- dates (src lines 166-178) ---------- -/

def isSepChar (c : Char) : Bool := c == '.' || c == '/' || c == '-'

def isD03 (c : Char) : Bool := '0' ≤ c && c ≤ '3'

def isD01 (c : Char) : Bool := c == '0' || c == '1'

/-- Does s start with characters matching the given class list? -/
def matchShape : List (Char → Bool) → LC → Bool
  | [], _ => true
  | _ :: _, [] => false
  | p :: ps, c :: cs => p c && matchShape ps cs

/-- One fixed-width alternative of the date pattern together with its
trailing word boundary. -/
def tryShape (ps : List (Char → Bool)) (s : LC) : Option Nat :=
  if matchShape ps s && boundaryAfter s ps.length then some ps.length
  else none

/-- The date regex at the start of s (leading word boundary checked by the
caller): alternatives D sep M sep YYYY then YYYY sep M sep D (sep one of
dot, slash, dash), each with the
optional leading digit of day and month expanded in the greedy backtracking
order (two-digit day before one-digit day, day choice before month
choice; in the second alternative the month choice comes first). -/
def dateMatchLen (s : LC) : Option Nat :=
  let d := Char.isDigit
  let sep := isSepChar
  tryShape [isD03, d, sep, isD01, d, sep, d, d, d, d] s
  <|> tryShape [isD03, d, sep, d, sep, d, d, d, d] s
  <|> tryShape [d, sep, isD01, d, sep, d, d, d, d] s
  <|> tryShape [d, sep, d, sep, d, d, d, d] s
  <|> tryShape [d, d, d, d, sep, isD01, d, sep, isD03, d] s
  <|> tryShape [d, d, d, d, sep, isD01, d, sep, d] s
  <|> tryShape [d, d, d, d, sep, d, sep, isD03, d] s
  <|> tryShape [d, d, d, d, sep, d, sep, d] s

/-- search of the bare date pattern (the fallback of src line 176),
scanning every position whose predecessor satisfies the word boundary. -/
def dateSearchAux : Option Char → LC → Option LC
  | _, [] => none
  | prev, c :: rest =>
    (if prevNonWord prev then
      (dateMatchLen (c :: rest)).map (fun n => (c :: rest).take n)
    else none)
    <|> dateSearchAux (some c) rest

def anyDateSearch (text : LC) : Option LC := dateSearchAux none text

/-- Attempt of label backslash-s* [:-]? backslash-s* (date) at the start
of s.  The word boundary before the date requires the character preceding
it to be non-word; labels end in a letter, so at least one whitespace or
separator character must have been consumed. -/
def labeledDateAt (label : LC) (s : LC) : Option LC :=
  if ciPrefixOf label s then
    let t1 := s.drop label.length
    let t2 := t1.dropWhile isPySpace
    let t3 := match t2 with
      | c :: r => if c = ':' ∨ c = '-' then r.dropWhile isPySpace else t2
      | [] => t2
    let consumed := s.length - t3.length
    let bOk := match s.get? (consumed - 1) with
      | some p => !(isWordChar p)
      | none => false
    if bOk then (dateMatchLen t3).map (fun n => t3.take n) else none
  else none

def labeledDateSearchAux (label : LC) : LC → Option LC
  | [] => none
  | s@(_ :: rest) => labeledDateAt label s <|> labeledDateSearchAux label rest

def labeledDateSearch (label : String) (text : LC) : Option LC :=
  labeledDateSearchAux label.data text

/- ---------- SKU / Size / Qty / Color block (src lines 180-204) ---------- -/

/-- One mandatory whitespace then the greedy rest of the run
(backslash-s+): the following literals start with non-space characters, so
no backtracking is needed. -/
def sp1 : LC → Option LC
  | [] => none
  | c :: r => if isPySpace c then some (r.dropWhile isPySpace) else none

/-- Attempt of SKU backslash-s+ Size backslash-s+ Qty backslash-s+ Color
backslash-s+ Order No backslash-. (flags re.I) at the start of s, returning
the text after the match. -/
def skuLabelAt (s : LC) : Option LC :=
  if ciPrefixOf "SKU".data s then do
    let t ← sp1 (s.drop 3)
    if ciPrefixOf "Size".data t then do
      let t ← sp1 (t.drop 4)
      if ciPrefixOf "Qty".data t then do
        let t ← sp1 (t.drop 3)
        if ciPrefixOf "Color".data t then do
          let t ← sp1 (t.drop 5)
          if ciPrefixOf "Order No.".data t then
            some (t.drop 9)
          else none
        else none
      else none
    else none
  else none

def skuLabelSearchAux : LC → Option LC
  | [] => none
  | s@(_ :: rest) => skuLabelAt s <|> skuLabelSearchAux rest

/-- sku_block: the first non-empty stripped line after the SKU header
(src lines 183-188). -/
def skuBlockOf (text : LC) : Option LC :=
  match skuLabelSearchAux text with
  | none => none
  | some tail =>
    (((splitLinesL tail).map pyStrip).filter (fun l => l ≠ [])).head?

/- ---------- line item (src lines 206-229) ---------- -/

def isAmtChar (c : Char) : Bool := c.isDigit || c == '.' || c == ','

/-- Amount tail backslash-s* ([0-9.,]+): skip whitespace, then a non-empty
greedy run of amount characters. -/
def amtFrom (u : LC) : Option LC :=
  let a := (u.dropWhile isPySpace).takeWhile isAmtChar
  if a = [] then none else some a

/-- Rs backslash-.? backslash-s* ([0-9.,]+) at the start of s (Rs matched
case-sensitively, as in the source patterns).  When the consumed dot leaves
no amount character, the engine backtracks and the dot itself starts the
capture. -/
def rsAmtAt (s : LC) : Option LC :=
  if "Rs".data.isPrefixOf s then
    let t := s.drop 2
    match t with
    | '.' :: r => amtFrom r <|> amtFrom t
    | _ => amtFrom t
  else none

/-- Tail of the line-item pattern after the HSN code:
backslash-s+ (backslash-d+) backslash-s+ Rs backslash-.? backslash-s*
([0-9.,]+).  Returns quantity and amount captures. -/
def liQtyAmt (t : LC) : Option (LC × LC)  := do
  let t1 ← sp1 t
  let qty := t1.takeWhile Char.isDigit
  if qty = [] then none else
  let t2 ← sp1 (t1.drop qty.length)
  let amt ← rsAmtAt t2
  some (qty, amt)

/-- backslash-d{5,6} then the rest of the line-item pattern, with the
greedy order six digits before five. -/
def liHsnTail (t : LC) : Option (LC × LC × LC) :=
  let run := t.takeWhile Char.isDigit
  let try6 :=
    if 6 ≤ run.length then
      (liQtyAmt (t.drop 6)).map (fun qa => (t.take 6, qa.1, qa.2))
    else none
  let try5 :=
    if 5 ≤ run.length then
      (liQtyAmt (t.drop 5)).map (fun qa => (t.take 5, qa.1, qa.2))
    else none
  try6 <|> try5

/-- Rest of the line-item pattern after the lazy product capture:
backslash-s+ then the HSN digits and their tail. -/
def liAfterProduct (t : LC) : Option (LC × LC × LC) := do
  let t1 ← sp1 t
  liHsnTail t1

/-- The line-item pattern (.+?) backslash-s+ (backslash-d{5,6})
backslash-s+ (backslash-d+) backslash-s+ Rs backslash-.? backslash-s*
([0-9.,]+) searched in a line: the lazy dot-plus makes the match start at
position zero whenever one exists, with the shortest product prefix (of at
least one character) whose successor position carries the rest of the
pattern. -/
def liScan (acc : LC) : LC → Option (LC × LC × LC × LC)
  | [] => none
  | c :: rest =>
    match liAfterProduct rest with
    | some (h, q, a) => some ((c :: acc).reverse, h, q, a)
    | none => liScan (c :: acc) rest

def lineItemAt (l : LC) : Option (LC × LC × LC × LC) :=
  liScan [] l

/-- The fallback pattern (backslash-d{5,6}) backslash-s+ 1 backslash-s+
Rs backslash-.? backslash-s* ([0-9.,]+), tail after the digits. -/
def fbTail (t : LC) : Option LC := do
  let t1 ← sp1 t
  match t1 with
  | '1' :: t2 => do
    let t3 ← sp1 t2
    rsAmtAt t3
  | _ => none

def fbHere (t : LC) : Option (LC × LC) :=
  let run := t.takeWhile Char.isDigit
  let try6 :=
    if 6 ≤ run.length then (fbTail (t.drop 6)).map (fun a => (t.take 6, a))
    else none
  let try5 :=
    if 5 ≤ run.length then (fbTail (t.drop 5)).map (fun a => (t.take 5, a))
    else none
  try6 <|> try5

def fbSearchAux : LC → Option (LC × LC)
  | [] => none
  | s@(_ :: rest) => fbHere s <|> fbSearchAux rest

/-- The non-empty stripped lines after the first occurrence of the literal
"Description" (src lines 208-209). -/
def descLines (text : LC) : Option (List LC) :=
  match subFind text "Description".data with
  | none => none
  | some i =>
    some (((splitLinesL (text.drop (i + "Description".length))).map
      pyStrip).filter (fun l => l ≠ []))

/-- First line of the Description block matching the strict 4-part
line-item pattern, with its captures (src lines 210-213). -/
def lineItemHit (text : LC) : Option (LC × LC × LC × LC) :=
  match descLines text with
  | none => none
  | some lines => lines.findSome? lineItemAt

/-- First line of the Description block matching the degraded 2-part
fallback pattern (src lines 223-225). -/
def fbHit (text : LC) : Option (LC × LC) :=
  match descLines text with
  | none => none
  | some lines => lines.findSome? fbSearchAux

/- ---------- total amount (src lines 231-234) ---------- -/

/-- Match of Rs backslash-.? backslash-s* ([0-9.,]+) at the start of s
together with the total matched length (needed to resume the findall scan
after the match). -/
def rsTokAt (s : LC) : Option (LC × Nat) :=
  if "Rs".data.isPrefixOf s then
    let t := s.drop 2
    let withSp : LC → Nat → Option (LC × Nat) := fun u consumed =>
      let spn := (u.takeWhile isPySpace).length
      let a := (u.drop spn).takeWhile isAmtChar
      if a = [] then none else some (a, consumed + spn + a.length)
    match t with
    | '.' :: r => withSp r 3 <|> withSp t 2
    | _ => withSp t 2
  else none

/-- findall of Rs backslash-.? backslash-s* ([0-9.,]+): group captures of
the non-overlapping leftmost matches. -/
def rsFindAux : Nat → LC → List LC
  | 0, _ => []
  | _ + 1, [] => []
  | fuel + 1, s@(_ :: rest) =>
    match rsTokAt s with
    | some (g, len) => g :: rsFindAux fuel (s.drop len)
    | none => rsFindAux fuel rest

def rsTokens (text : LC) : List LC := rsFindAux text.length text

/- ---------- extract_from_text (src lines 138-240) ---------- -/

/-- src lines 141-143: res.update of the customer/address extractor. -/
def custStage (text : LC) (res : Record) : Record :=
  let cb := extract_customer_block text
  dinsert (dinsert res "customer" cb.customer) "address" cb.address

/-- src lines 145-159: explicit Purchase Order No label, else the first
12-24 digit standalone token whose length is at least 12 and not 6. -/
def poStage (text : LC) (res : Record) : Record :=
  match poSearch text with
  | some cap => dinsert res "purchase_order_no" (String.mk cap)
  | none =>
    match (longNums text).find?
        (fun n => decide (12 ≤ n.length ∧ n.length ≠ 6)) with
    | some n => dinsert res "purchase_order_no" (String.mk n)
    | none => res

/-- src lines 161-164: invoice number from the explicit label only. -/
def invStage (text : LC) (res : Record) : Record :=
  match invSearch text with
  | some cap => dinsert res "invoice_no" (String.mk cap)
  | none => res

/-- src lines 166-178: labelled order and invoice dates, then the any-date
fallback for the order date when it is still unset. -/
def dateStage (text : LC) (res : Record) : Record :=
  let res := match labeledDateSearch "Order Date" text with
    | some d => dinsert res "order_date" (String.mk d)
    | none => res
  let res := match labeledDateSearch "Invoice Date" text with
    | some d => dinsert res "invoice_date" (String.mk d)
    | none => res
  if rget res "order_date" = none then
    match anyDateSearch text with
    | some d => dinsert res "order_date" (String.mk d)
    | none => res
  else res

/-- src lines 180-204: the SKU / Size / Qty / Color table row. -/
def skuStage (text : LC) (res : Record) : Record :=
  match skuBlockOf text with
  | none => res
  | some b =>
    if b = [] then res else
    let parts := pySplit b
    if 5 ≤ parts.length ∧ lowerL (parts.getD 1 []) = "free".data
        ∧ lowerL (parts.getD 2 []) = "size".data then
      let res := dinsert res "sku" (String.mk (parts.getD 0 []))
      let res := dinsert res "size" "Free Size"
      let res := dinsert res "qty" (String.mk (parts.getD 3 []))
      dinsert res "color"
        (if 4 < parts.length then String.mk (parts.getD 4 []) else "NA")
    else if 4 ≤ parts.length then
      let res := dinsert res "sku" (String.mk (parts.getD 0 []))
      let res := dinsert res "size" (String.mk (parts.getD 1 []))
      let res := dinsert res "qty" (String.mk (parts.getD 2 []))
      dinsert res "color" (String.mk (parts.getD 3 []))
    else res

/-- src lines 206-229: product / HSN / qty / gross amount from the
Description table, with the quantity-precedence guard and the degraded
fallback. -/
def itemStage (text : LC) (res : Record) : Record :=
  match descLines text with
  | none => res
  | some lines =>
    let res := match lines.findSome? lineItemAt with
      | some (p, h, q, g) =>
        let res := dinsert res "product" (String.mk (pyStrip p))
        let res := dinsert res "hsn" (String.mk h)
        let res :=
          if rget res "qty" = none ∨ rget res "qty" = some "NA" then
            dinsert res "qty" (String.mk q)
          else res
        dinsert res "gross_amount" (clean_amt (String.mk g))
      | none => res
    if rget res "product" = none then
      match lines.findSome? fbSearchAux with
      | some (h, g) =>
        let res := if rget res "hsn" = none then dinsert res "hsn" (String.mk h)
          else res
        if rget res "gross_amount" = none then
          dinsert res "gross_amount" (clean_amt (String.mk g))
        else res
      | none => res
    else res

/-- src lines 231-234: the last currency token of the whole document. -/
def totalStage (text : LC) (res : Record) : Record :=
  match (rsTokens text).getLast? with
  | none => res
  | some v => dinsert res "total_amount" (clean_amt (String.mk v))

/-- One iteration of the normalization loop of src lines 237-239. -/
def normPut (r : Record) (k : String) : Record :=
  if (rget r k).isSome then r else dinsert r k "NA"

def normFold (cols : List String) (res : Record) : Record :=
  cols.foldl normPut res

/-- src lines 236-239: fill every still-missing expected column with the
sentinel. -/
def normStage (res : Record) : Record := normFold EXPECTED_COLUMNS res

def preSku (t : LC) : Record :=
  dateStage t (invStage t (poStage t (custStage t [])))

def postSku (t : LC) : Record := skuStage t (preSku t)

def preNorm (t : LC) : Record := totalStage t (itemStage t (postSku t))

def extract_from_text (s : String) : Record := normStage (preNorm s.data)

/- ==================== lemmas about the record mapping ==================== -/

theorem rget_dinsert_self (r : Record) (k v : String) :
    rget (dinsert r k v) k = some v := by
  induction r with
  | nil => simp [dinsert, rget]
  | cons kv rest ih =>
    obtain ⟨k', v'⟩ := kv
    by_cases h : k' = k <;> simp [dinsert, rget, h, ih]

theorem rget_dinsert_ne (r : Record) (k key v : String) (h : k ≠ key) :
    rget (dinsert r key v) k = rget r k := by
  induction r with
  | nil => simp [dinsert, rget, Ne.symm h]
  | cons kv rest ih =>
    obtain ⟨k', v'⟩ := kv
    by_cases hk : k' = key
    · subst hk
      simp [dinsert, rget, Ne.symm h]
    · simp [dinsert, rget, hk, ih]

theorem isSome_rget_dinsert (r : Record) (k key v : String)
    (h : (rget r k).isSome) : (rget (dinsert r key v) k).isSome := by
  by_cases hk : k = key
  · subst hk
    simp [rget_dinsert_self]
  · rw [rget_dinsert_ne _ _ _ _ hk]
    exact h

theorem rget_normFold_present (cols : List String) (r : Record) (k v : String)
    (h : rget r k = some v) : rget (normFold cols r) k = some v := by
  induction cols generalizing r with
  | nil => exact h
  | cons e es ih =>
    have hstep : rget (normPut r e) k = some v := by
      unfold normPut
      split
      · exact h
      · by_cases hk : k = e
        · subst hk
          simp_all
        · rw [rget_dinsert_ne _ _ _ _ hk]
          exact h
    exact ih (normPut r e) hstep

theorem isSome_rget_normFold (cols : List String) (r : Record) (k : String)
    (h : (rget r k).isSome) : (rget (normFold cols r) k).isSome := by
  induction cols generalizing r with
  | nil => exact h
  | cons e es ih =>
    have hstep : (rget (normPut r e) k).isSome := by
      unfold normPut
      split
      · exact h
      · exact isSome_rget_dinsert _ _ _ _ h
    exact ih (normPut r e) hstep

theorem rget_normFold_mem (cols : List String) (r : Record) (k : String)
    (h : k ∈ cols) : (rget (normFold cols r) k).isSome := by
  induction cols generalizing r with
  | nil => cases h
  | cons e es ih =>
    rcases List.mem_cons.mp h with he | hes
    · subst he
      have hstep : (rget (normPut r k) k).isSome := by
        unfold normPut
        split
        · assumption
        · simp [rget_dinsert_self]
      exact isSome_rget_normFold es (normPut r k) k hstep
    · exact ih (normPut r e) hes

theorem rget_normFold_not_mem (cols : List String) (r : Record) (k : String)
    (h : k ∉ cols) : rget (normFold cols r) k = rget r k := by
  induction cols generalizing r with
  | nil => rfl
  | cons e es ih =>
    have hk : k ≠ e := fun hk => h (hk ▸ List.mem_cons_self e es)
    have hes : k ∉ es := fun hs => h (List.mem_cons_of_mem e hs)
    have hstep : rget (normPut r e) k = rget r k := by
      unfold normPut
      split
      · rfl
      · exact rget_dinsert_ne _ _ _ _ hk
    have hunf : normFold (e :: es) r = normFold es (normPut r e) := rfl
    rw [hunf, ih (normPut r e) hes, hstep]

theorem rget_normFold_none_mem (cols : List String) (r : Record) (k : String)
    (hmem : k ∈ cols) (h : rget r k = none) :
    rget (normFold cols r) k = some "NA" := by
  induction cols generalizing r with
  | nil => cases hmem
  | cons e es ih =>
    by_cases hk : k = e
    · subst hk
      have hstep : rget (normPut r k) k = some "NA" := by
        unfold normPut
        split
        · simp_all
        · exact rget_dinsert_self _ _ _
      exact rget_normFold_present es (normPut r k) k "NA" hstep
    · have hes : k ∈ es := by
        rcases List.mem_cons.mp hmem with he | hes
        · exact absurd he hk
        · exact hes
      have hstep : rget (normPut r e) k = rget r k := by
        unfold normPut
        split
        · rfl
        · exact rget_dinsert_ne _ _ _ _ hk
      exact ih (normPut r e) hes (hstep.trans h)

/- ============ keys touched by each extractor stage ============ -/

theorem rget_custStage (t : LC) (r : Record) (k : String)
    (h1 : k ≠ "customer") (h2 : k ≠ "address") :
    rget (custStage t r) k = rget r k := by
  unfold custStage
  rw [rget_dinsert_ne _ _ _ _ h2, rget_dinsert_ne _ _ _ _ h1]

theorem rget_poStage (t : LC) (r : Record) (k : String)
    (h : k ≠ "purchase_order_no") :
    rget (poStage t r) k = rget r k := by
  unfold poStage
  split
  · exact rget_dinsert_ne _ _ _ _ h
  · split
    · exact rget_dinsert_ne _ _ _ _ h
    · rfl

theorem rget_invStage (t : LC) (r : Record) (k : String)
    (h : k ≠ "invoice_no") :
    rget (invStage t r) k = rget r k := by
  unfold invStage
  split
  · exact rget_dinsert_ne _ _ _ _ h
  · rfl

theorem rget_ite (c : Prop) [Decidable c] (a b : Record) (k : String) :
    rget (if c then a else b) k = if c then rget a k else rget b k := by
  split <;> rfl

theorem rget_dateStage (t : LC) (r : Record) (k : String)
    (h1 : k ≠ "order_date") (h2 : k ≠ "invoice_date") :
    rget (dateStage t r) k = rget r k := by
  unfold dateStage
  cases hod : labeledDateSearch "Order Date" t <;>
    cases hid : labeledDateSearch "Invoice Date" t <;>
      cases hany : anyDateSearch t <;>
        simp only [rget_ite, rget_dinsert_ne _ _ _ _ h1,
          rget_dinsert_ne _ _ _ _ h2, ite_self]

theorem rget_skuStage (t : LC) (r : Record) (k : String)
    (h1 : k ≠ "sku") (h2 : k ≠ "size") (h3 : k ≠ "qty") (h4 : k ≠ "color") :
    rget (skuStage t r) k = rget r k := by
  unfold skuStage
  cases hb : skuBlockOf t
  · rfl
  · simp only [rget_ite, rget_dinsert_ne _ _ _ _ h1, rget_dinsert_ne _ _ _ _ h2,
      rget_dinsert_ne _ _ _ _ h3, rget_dinsert_ne _ _ _ _ h4, ite_self]

theorem rget_itemStage (t : LC) (r : Record) (k : String)
    (h1 : k ≠ "product") (h2 : k ≠ "hsn") (h3 : k ≠ "qty")
    (h4 : k ≠ "gross_amount") :
    rget (itemStage t r) k = rget r k := by
  unfold itemStage
  cases hd : descLines t
  · rfl
  · rename_i lines
    cases hli : List.findSome? lineItemAt lines
    · cases hfb : List.findSome? fbSearchAux lines
      · simp only [hli, hfb, rget_ite, ite_self]
      · rename_i fb
        obtain ⟨fh, fg⟩ := fb
        simp only [hli, hfb, rget_ite, rget_dinsert_ne _ _ _ _ h2,
          rget_dinsert_ne _ _ _ _ h4, ite_self]
    · rename_i li
      obtain ⟨p, hh, q, g⟩ := li
      cases hfb : List.findSome? fbSearchAux lines
      · simp only [hli, hfb, rget_ite, rget_dinsert_ne _ _ _ _ h1,
          rget_dinsert_ne _ _ _ _ h2, rget_dinsert_ne _ _ _ _ h3,
          rget_dinsert_ne _ _ _ _ h4, ite_self]
      · rename_i fb
        obtain ⟨fh, fg⟩ := fb
        simp only [hli, hfb, rget_ite, rget_dinsert_ne _ _ _ _ h1,
          rget_dinsert_ne _ _ _ _ h2, rget_dinsert_ne _ _ _ _ h3,
          rget_dinsert_ne _ _ _ _ h4, ite_self]

theorem rget_totalStage (t : LC) (r : Record) (k : String)
    (h : k ≠ "total_amount") :
    rget (totalStage t r) k = rget r k := by
  unfold totalStage
  split
  · rfl
  · exact rget_dinsert_ne _ _ _ _ h

/- ============ small helper lemmas ============ -/

theorem mk_ne_empty (l : LC) (h : l ≠ []) : String.mk l ≠ "" :=
  fun he => h (congrArg String.data he)

theorem takeWhile_all (p : Char → Bool) :
    ∀ l : LC, (l.takeWhile p).all p = true := by
  intro l
  induction l with
  | nil => rfl
  | cons c rest ih =>
    by_cases h : p c = true
    · simp [List.takeWhile, h, ih]
    · simp [List.takeWhile, Bool.eq_false_iff.mpr h]

/- ============ claim C1 ============ -/

/-- C1: for every input text, extract_from_text terminates (it is a total
function of this development) and returns a record whose key set is exactly
EXPECTED_COLUMNS: a key has a (string) value exactly when it is one of the
expected columns. -/
theorem C1_total_schema (s k : String) :
    (rget (extract_from_text s) k).isSome = true ↔ k ∈ EXPECTED_COLUMNS := by
  constructor
  · intro hs
    by_contra hmem
    have hne : ∀ c : String, c ∈ EXPECTED_COLUMNS → k ≠ c :=
      fun c hc h => hmem (h ▸ hc)
    have hnone : rget (preNorm s.data) k = none := by
      unfold preNorm postSku preSku
      rw [rget_totalStage _ _ _ (hne "total_amount" (by decide)),
        rget_itemStage _ _ _ (hne "product" (by decide))
          (hne "hsn" (by decide)) (hne "qty" (by decide))
          (hne "gross_amount" (by decide)),
        rget_skuStage _ _ _ (hne "sku" (by decide)) (hne "size" (by decide))
          (hne "qty" (by decide)) (hne "color" (by decide)),
        rget_dateStage _ _ _ (hne "order_date" (by decide))
          (hne "invoice_date" (by decide)),
        rget_invStage _ _ _ (hne "invoice_no" (by decide)),
        rget_poStage _ _ _ (hne "purchase_order_no" (by decide)),
        rget_custStage _ _ _ (hne "customer" (by decide))
          (hne "address" (by decide))]
      rfl
    have hkeep : rget (extract_from_text s) k = rget (preNorm s.data) k :=
      rget_normFold_not_mem EXPECTED_COLUMNS (preNorm s.data) k hmem
    rw [hkeep, hnone] at hs
    cases hs
  · intro hmem
    exact rget_normFold_mem EXPECTED_COLUMNS (preNorm s.data) k hmem

/-- Concrete instance of C1_total_schema. -/
theorem C1_total_schema_witness :
    ((rget (extract_from_text "") "qty").isSome = true ↔
      "qty" ∈ EXPECTED_COLUMNS) ∧
    ((rget (extract_from_text "some stray text") "added_at").isSome = true ↔
      "added_at" ∈ EXPECTED_COLUMNS) :=
  ⟨C1_total_schema "" "qty", C1_total_schema "some stray text" "added_at"⟩

/- ============ claim C9 ============ -/

/-- C9: extracting from the empty string yields the all-sentinel record:
every binding of the result carries the value NA, and every expected column
is bound to NA. -/
theorem C9_empty_all_sentinel :
    (extract_from_text "").all (fun p => p.2 == "NA") = true ∧
    EXPECTED_COLUMNS.all
      (fun k => rget (extract_from_text "") k == some "NA") = true := by
  decide

/- ============ claim C10 ============ -/

theorem mk_guard_ne_empty (l : LC) :
    String.mk (if l = [] then "NA".data else l) ≠ "" := by
  split
  · decide
  · exact mk_ne_empty _ (by assumption)

theorem finishCust_nonempty (c a : LC) :
    (finishCust c a).customer ≠ "" ∧ (finishCust c a).address ≠ "" := by
  unfold finishCust
  exact ⟨mk_guard_ne_empty _, mk_guard_ne_empty _⟩

/-- C10: the customer and address fields produced by the customer/address
extractor are never the empty string: each is either a non-empty extracted
string or the sentinel NA (an empty candidate is replaced by the sentinel
in the final sanitization). -/
theorem C10_customer_address_nonempty (t : LC) :
    (extract_customer_block t).customer ≠ "" ∧
    (extract_customer_block t).address ≠ "" := by
  unfold extract_customer_block
  dsimp only
  split
  · exact ⟨by decide, by decide⟩
  · split
    · exact ⟨by decide, by decide⟩
    · split
      · exact ⟨by decide, by decide⟩
      · split
        · exact finishCust_nonempty _ _
        · exact finishCust_nonempty _ _

/-- Concrete instance of C10_customer_address_nonempty. -/
theorem C10_customer_address_nonempty_witness :
    (extract_customer_block "Customer Address\nRavi\n560001".data).customer ≠ ""
    ∧ (extract_customer_block "Customer Address\nRavi\n560001".data).address ≠ "" :=
  C10_customer_address_nonempty "Customer Address\nRavi\n560001".data

/- ============ claim C3 ============ -/

/-- C3 counterexample: with the customer start/end marker lists, a text in
which the end marker GSTIN immediately follows the start marker Customer
Address makes find_block return the start marker itself - a non-empty
substring - not the empty substring the claim asserts (the block is
measured from the marker's start position, not its end position). -/
theorem C3_counterexample :
    find_block "Customer AddressGSTIN 22AAAAA".data
        (cust_start_tokens.map String.data) (cust_end_tokens.map String.data)
      = some "Customer Address".data
    ∧ "Customer Address".data ≠ [] := by
  constructor
  · decide
  · decide

/-- C3 amended: find_block measures the block from the start marker's start
position: when the first start token is found at index i and the fold over
end tokens yields end index i + L, the block is the L-character substring
of the original text starting at i (so adjacent start and end markers give
back the start marker itself, never the empty substring). -/
theorem C3_block_from_marker_start (text : LC) (st et : List LC) (i L : Nat)
    (hs : firstFindTok (lowerL text) st = some i)
    (he : endFoldIdx (lowerL text) et i text.length = i + L) :
    find_block text st et = some ((text.drop i).take L) := by
  unfold find_block
  simp only [hs, he, Nat.add_sub_cancel_left]

/-- Concrete instance of C3_block_from_marker_start: the marker pair is
adjacent and the returned block is the 16-character start marker. -/
theorem C3_block_from_marker_start_witness :
    find_block "Customer AddressIf undelivered".data
        (cust_start_tokens.map String.data) (cust_end_tokens.map String.data)
      = some (("Customer AddressIf undelivered".data.drop 0).take 16) :=
  C3_block_from_marker_start "Customer AddressIf undelivered".data
    (cust_start_tokens.map String.data) (cust_end_tokens.map String.data)
    0 16 (by decide) (by decide)

/- ============ claim C6 ============ -/

theorem poLabelAt_spec (s cap : LC) (h : poLabelAt s = some cap) :
    cap ≠ [] ∧ cap.all (fun c => c.isDigit || c == '_') = true := by
  unfold poLabelAt at h
  split at h
  · dsimp only at h
    split at h
    · cases h
    · rename_i hne
      cases h
      exact ⟨hne, takeWhile_all _ _⟩
  · cases h

theorem poSearchAux_spec (s cap : LC) (h : poSearchAux s = some cap) :
    cap ≠ [] ∧ cap.all (fun c => c.isDigit || c == '_') = true := by
  induction s with
  | nil => cases h
  | cons c rest ih =>
    rw [poSearchAux] at h
    cases hpo : poLabelAt (c :: rest) with
    | some x =>
      rw [hpo, Option.some_orElse] at h
      cases h
      exact poLabelAt_spec _ _ hpo
    | none =>
      rw [hpo, Option.none_orElse] at h
      exact ih h

/-- C6 counterexample: on the text Purchase Order No. 5 the explicit-label
path stores the single digit 5 as the purchase order number, which is not a
run of 12 to 24 digits. -/
theorem C6_counterexample :
    poSearch "Purchase Order No. 5".data = some "5".data
    ∧ rget (extract_from_text "Purchase Order No. 5") "purchase_order_no"
        = some "5"
    ∧ "5".length = 1 := by
  refine ⟨by decide, by decide, by decide⟩

/-- C6 amended: whenever the purchase_order_no field is populated from the
explicit Purchase Order No label, the stored value is the (non-empty)
captured run of digits and underscores - of any length, not necessarily 12
to 24 digits. -/
theorem C6_po_label_capture (s : String) (cap : LC)
    (h : poSearch s.data = some cap) :
    rget (extract_from_text s) "purchase_order_no" = some (String.mk cap)
    ∧ cap ≠ [] ∧ cap.all (fun c => c.isDigit || c == '_') = true := by
  refine ⟨?_, poSearchAux_spec _ _ h⟩
  have hpo : rget (poStage s.data (custStage s.data [])) "purchase_order_no"
      = some (String.mk cap) := by
    unfold poStage
    simp only [h]
    exact rget_dinsert_self _ _ _
  have hchain : rget (preNorm s.data) "purchase_order_no"
      = some (String.mk cap) := by
    unfold preNorm postSku preSku
    rw [rget_totalStage _ _ _ (by decide),
      rget_itemStage _ _ _ (by decide) (by decide) (by decide) (by decide),
      rget_skuStage _ _ _ (by decide) (by decide) (by decide) (by decide),
      rget_dateStage _ _ _ (by decide) (by decide),
      rget_invStage _ _ _ (by decide)]
    exact hpo
  exact rget_normFold_present _ _ _ _ hchain

/-- Concrete instance of C6_po_label_capture. -/
theorem C6_po_label_capture_witness :
    rget (extract_from_text "Purchase Order No: 123") "purchase_order_no"
      = some (String.mk "123".data)
    ∧ "123".data ≠ []
    ∧ "123".data.all (fun c => c.isDigit || c == '_') = true :=
  C6_po_label_capture "Purchase Order No: 123" "123".data (by decide)

/- ============ claim C8 ============ -/

/-- C8: the total amount is the cleaned last currency token of the
document: when the findall of currency-prefixed tokens ends with v, the
record stores clean_amt v (labels and thousands commas stripped); when
there is no such token the record stores the sentinel NA. -/
theorem totalStage_of_no_tokens (t : LC) (r : Record)
    (h : rsTokens t = []) : totalStage t r = r := by
  unfold totalStage
  rw [h]
  rfl

theorem totalStage_of_tokens (t : LC) (r : Record) (l : List LC) (v : LC)
    (h : rsTokens t = l ++ [v]) :
    totalStage t r = dinsert r "total_amount" (clean_amt (String.mk v)) := by
  unfold totalStage
  rw [h, List.getLast?_concat]

theorem C8_total_last_currency (s : String) :
    (∀ (l : List LC) (v : LC), rsTokens s.data = l ++ [v] →
      rget (extract_from_text s) "total_amount"
        = some (clean_amt (String.mk v)))
    ∧ (rsTokens s.data = [] →
      rget (extract_from_text s) "total_amount" = some "NA") := by
  constructor
  · intro l v hlv
    have ht : rget (preNorm s.data) "total_amount"
        = some (clean_amt (String.mk v)) := by
      unfold preNorm
      rw [totalStage_of_tokens _ _ _ _ hlv]
      exact rget_dinsert_self _ _ _
    exact rget_normFold_present _ _ _ _ ht
  · intro hemp
    have hn : rget (preNorm s.data) "total_amount" = none := by
      unfold preNorm postSku preSku
      rw [totalStage_of_no_tokens _ _ hemp,
        rget_itemStage _ _ _ (by decide) (by decide) (by decide) (by decide),
        rget_skuStage _ _ _ (by decide) (by decide) (by decide) (by decide),
        rget_dateStage _ _ _ (by decide) (by decide),
        rget_invStage _ _ _ (by decide),
        rget_poStage _ _ _ (by decide),
        rget_custStage _ _ _ (by decide) (by decide)]
      rfl
    exact rget_normFold_none_mem EXPECTED_COLUMNS (preNorm s.data)
      "total_amount" (by decide) hn

/-- Concrete instances of C8_total_last_currency: a document whose last
currency token is 1,299.00 stores 1299.00, and a document with no currency
token stores NA. -/
theorem C8_total_last_currency_witness :
    rget (extract_from_text "Total Rs. 1,299.00") "total_amount"
      = some (clean_amt (String.mk "1,299.00".data))
    ∧ rget (extract_from_text "no currency here") "total_amount" = some "NA" :=
  ⟨(C8_total_last_currency "Total Rs. 1,299.00").1 [] "1,299.00".data
      (by decide),
    (C8_total_last_currency "no currency here").2 (by decide)⟩

/- ============ claim C5 ============ -/

theorem itemStage_keeps_qty (t : LC) (r : Record) (q : String)
    (hq : rget r "qty" = some q) (hne : q ≠ "NA") :
    rget (itemStage t r) "qty" = some q := by
  unfold itemStage
  cases hd : descLines t
  · exact hq
  · rename_i lines
    cases hli : List.findSome? lineItemAt lines
    · cases hfb : List.findSome? fbSearchAux lines
      · simp only [hli, hfb, rget_ite, ite_self]
        exact hq
      · rename_i fb
        obtain ⟨fh, fg⟩ := fb
        simp only [hli, hfb, rget_ite,
          rget_dinsert_ne _ _ _ _ (show ("qty" : String) ≠ "hsn" by decide),
          rget_dinsert_ne _ _ _ _
            (show ("qty" : String) ≠ "gross_amount" by decide), ite_self]
        exact hq
    · rename_i li
      obtain ⟨p, hh, q2, g⟩ := li
      have hq2 : rget (dinsert (dinsert r "product"
          (String.mk (pyStrip p))) "hsn" (String.mk hh)) "qty" = some q := by
        rw [rget_dinsert_ne _ _ _ _ (by decide),
          rget_dinsert_ne _ _ _ _ (by decide)]
        exact hq
      have hguard : ¬(rget (dinsert (dinsert r "product"
            (String.mk (pyStrip p))) "hsn" (String.mk hh)) "qty" = none
          ∨ rget (dinsert (dinsert r "product"
            (String.mk (pyStrip p))) "hsn" (String.mk hh)) "qty"
            = some "NA") := by
        rw [hq2]
        rintro (hc | hc)
        · cases hc
        · exact hne (Option.some.inj hc)
      simp only [hli, if_neg hguard]
      have hprod : rget (dinsert (dinsert (dinsert r "product"
            (String.mk (pyStrip p))) "hsn" (String.mk hh)) "gross_amount"
            (clean_amt (String.mk g))) "product"
          = some (String.mk (pyStrip p)) := by
        rw [rget_dinsert_ne _ _ _ _ (by decide),
          rget_dinsert_ne _ _ _ _ (by decide)]
        exact rget_dinsert_self _ _ _
      rw [if_neg (by rw [hprod]; intro hc; cases hc)]
      rw [rget_dinsert_ne _ _ _ _ (by decide)]
      exact hq2

/-- C5: when the SKU-table extractor has stored a quantity other than the
sentinel NA, and the Description-table line-item extractor also matches a
line (with its own quantity capture), the final record keeps the SKU-table
quantity: the line-item extractor does not overwrite it. -/
theorem C5_sku_qty_precedence (s : String) (q : String)
    (hq : rget (postSku s.data) "qty" = some q) (hne : q ≠ "NA")
    (hit : (lineItemHit s.data).isSome = true) :
    rget (extract_from_text s) "qty" = some q := by
  have h1 : rget (itemStage s.data (postSku s.data)) "qty" = some q :=
    itemStage_keeps_qty s.data (postSku s.data) q hq hne
  have h2 : rget (preNorm s.data) "qty" = some q := by
    unfold preNorm
    rw [rget_totalStage _ _ _ (by decide)]
    exact h1
  exact rget_normFold_present _ _ _ _ h2

/-- Concrete instance of C5_sku_qty_precedence: the SKU table stores
quantity 3, the description line-item would capture quantity 2, and the
final record keeps 3. -/
theorem C5_sku_qty_precedence_witness :
    rget (extract_from_text
        "SKU Size Qty Color Order No.\nAB M 3 Red 77\nDescription\nShirt 12345 2 Rs.10")
      "qty" = some "3" :=
  C5_sku_qty_precedence
    "SKU Size Qty Color Order No.\nAB M 3 Red 77\nDescription\nShirt 12345 2 Rs.10"
    "3" (by decide) (by decide) (by decide)

/- ============ claim C4 ============ -/

/-- C4 counterexample: on a document whose single date-shaped token is
labelled Invoice Date, the extraction fills invoice_date with the date but
also copies that same date into order_date through the unlabelled any-date
fallback, so order_date does not stay NA as the claim asserts. -/
theorem C4_counterexample :
    rget (extract_from_text "Invoice Date 12/01/2024") "invoice_date"
      = some "12/01/2024"
    ∧ rget (extract_from_text "Invoice Date 12/01/2024") "order_date"
      = some "12/01/2024" := by
  constructor
  · decide
  · decide

theorem rget_dateStage_invoice_none (t : LC) (r : Record)
    (h : labeledDateSearch "Invoice Date" t = none) :
    rget (dateStage t r) "invoice_date" = rget r "invoice_date" := by
  unfold dateStage
  cases hod : labeledDateSearch "Order Date" t <;>
    cases hany : anyDateSearch t <;>
      simp only [h, hod, hany, rget_ite,
        rget_dinsert_ne _ _ _ _
          (show ("invoice_date" : String) ≠ "order_date" by decide),
        ite_self]

/-- C4 amended: order date and invoice date are not extracted
independently.  When the only labelled date search that succeeds is the
Invoice Date one and the bare-date fallback finds the same date token, the
record carries that date in both invoice_date and order_date (the fallback
fills order_date from any date in the document).  In the opposite
direction the claim holds: when no Invoice Date label matches, invoice_date
stays at the sentinel NA, since invoice_date has no fallback. -/
theorem C4_order_date_fallback_copies :
    (∀ (s : String) (d : LC),
      labeledDateSearch "Order Date" s.data = none →
      labeledDateSearch "Invoice Date" s.data = some d →
      anyDateSearch s.data = some d →
      rget (extract_from_text s) "invoice_date" = some (String.mk d)
      ∧ rget (extract_from_text s) "order_date" = some (String.mk d))
    ∧ (∀ s : String,
      labeledDateSearch "Invoice Date" s.data = none →
      rget (extract_from_text s) "invoice_date" = some "NA") := by
  constructor
  · intro s d hod hid hany
    have hup : rget (invStage s.data (poStage s.data (custStage s.data [])))
        "order_date" = none := by
      rw [rget_invStage _ _ _ (by decide), rget_poStage _ _ _ (by decide),
        rget_custStage _ _ _ (by decide) (by decide)]
      rfl
    have hcond : rget (dinsert (invStage s.data (poStage s.data
        (custStage s.data []))) "invoice_date" (String.mk d))
        "order_date" = none := by
      rw [rget_dinsert_ne _ _ _ _ (by decide)]
      exact hup
    have hds : rget (preSku s.data) "order_date" = some (String.mk d)
        ∧ rget (preSku s.data) "invoice_date" = some (String.mk d) := by
      unfold preSku dateStage
      simp only [hod, hid, hany]
      rw [if_pos hcond]
      constructor
      · exact rget_dinsert_self _ _ _
      · rw [rget_dinsert_ne _ _ _ _ (by decide)]
        exact rget_dinsert_self _ _ _
    constructor
    · have h2 : rget (preNorm s.data) "invoice_date"
          = some (String.mk d) := by
        unfold preNorm postSku
        rw [rget_totalStage _ _ _ (by decide),
          rget_itemStage _ _ _ (by decide) (by decide) (by decide) (by decide),
          rget_skuStage _ _ _ (by decide) (by decide) (by decide) (by decide)]
        exact hds.2
      exact rget_normFold_present _ _ _ _ h2
    · have h2 : rget (preNorm s.data) "order_date" = some (String.mk d) := by
        unfold preNorm postSku
        rw [rget_totalStage _ _ _ (by decide),
          rget_itemStage _ _ _ (by decide) (by decide) (by decide) (by decide),
          rget_skuStage _ _ _ (by decide) (by decide) (by decide) (by decide)]
        exact hds.1
      exact rget_normFold_present _ _ _ _ h2
  · intro s hid
    have hn : rget (preNorm s.data) "invoice_date" = none := by
      unfold preNorm postSku preSku
      rw [rget_totalStage _ _ _ (by decide),
        rget_itemStage _ _ _ (by decide) (by decide) (by decide) (by decide),
        rget_skuStage _ _ _ (by decide) (by decide) (by decide) (by decide),
        rget_dateStage_invoice_none _ _ hid,
        rget_invStage _ _ _ (by decide),
        rget_poStage _ _ _ (by decide),
        rget_custStage _ _ _ (by decide) (by decide)]
      rfl
    exact rget_normFold_none_mem EXPECTED_COLUMNS (preNorm s.data)
      "invoice_date" (by decide) hn

/-- Concrete instances of C4_order_date_fallback_copies: an Invoice
Date-only document carries the date in both fields; an Order Date-only
document leaves invoice_date at NA. -/
theorem C4_order_date_fallback_copies_witness :
    (rget (extract_from_text "Invoice Date 2/3/2024") "invoice_date"
        = some (String.mk "2/3/2024".data)
      ∧ rget (extract_from_text "Invoice Date 2/3/2024") "order_date"
        = some (String.mk "2/3/2024".data))
    ∧ rget (extract_from_text "Order Date 12/01/2024") "invoice_date"
      = some "NA" :=
  ⟨C4_order_date_fallback_copies.1 "Invoice Date 2/3/2024" "2/3/2024".data
      (by decide) (by decide) (by decide),
    C4_order_date_fallback_copies.2 "Order Date 12/01/2024" (by decide)⟩

/- ============ claim C7 ============ -/

/-- C7 counterexample: a SKU data line whose tokens are A, Free, Size, 2
satisfies the claim's hypothesis (second token Free, third token Size) but
has only four tokens, so the code takes the generic branch: size becomes
Free (not Free Size) and qty becomes the literal token Size. -/
theorem C7_counterexample :
    skuBlockOf "SKU Size Qty Color Order No.\nA Free Size 2".data
      = some "A Free Size 2".data
    ∧ rget (extract_from_text "SKU Size Qty Color Order No.\nA Free Size 2")
        "size" = some "Free"
    ∧ rget (extract_from_text "SKU Size Qty Color Order No.\nA Free Size 2")
        "qty" = some "Size" := by
  refine ⟨by decide, by decide, by decide⟩

/-- C7 amended: the Free + Size merge applies only to SKU data lines with
at least five whitespace-separated tokens whose second token is Free and
third is Size (case-insensitively); for those, the extractor stores the
merged size Free Size and reads quantity from the fourth token and color
from the fifth. -/
theorem C7_free_size_shift (t : LC) (b : LC)
    (hb : skuBlockOf t = some b) (hben : b ≠ [])
    (h5 : 5 ≤ (pySplit b).length)
    (hfree : lowerL ((pySplit b).getD 1 []) = "free".data)
    (hsize : lowerL ((pySplit b).getD 2 []) = "size".data) :
    rget (postSku t) "size" = some "Free Size"
    ∧ rget (postSku t) "qty" = some (String.mk ((pySplit b).getD 3 []))
    ∧ rget (postSku t) "color" = some (String.mk ((pySplit b).getD 4 [])) := by
  unfold postSku skuStage
  simp only [hb]
  rw [if_neg hben, if_pos ⟨h5, hfree, hsize⟩,
    if_pos (show 4 < (pySplit b).length by omega)]
  refine ⟨?_, ?_, ?_⟩
  · rw [rget_dinsert_ne _ _ _ _ (by decide),
      rget_dinsert_ne _ _ _ _ (by decide)]
    exact rget_dinsert_self _ _ _
  · rw [rget_dinsert_ne _ _ _ _ (by decide)]
    exact rget_dinsert_self _ _ _
  · exact rget_dinsert_self _ _ _

/-- Concrete instance of C7_free_size_shift. -/
theorem C7_free_size_shift_witness :
    rget (postSku "SKU Size Qty Color Order No.\nK9 Free size 2 Blue".data)
      "size" = some "Free Size"
    ∧ rget (postSku "SKU Size Qty Color Order No.\nK9 Free size 2 Blue".data)
      "qty" = some (String.mk
        ((pySplit "K9 Free size 2 Blue".data).getD 3 []))
    ∧ rget (postSku "SKU Size Qty Color Order No.\nK9 Free size 2 Blue".data)
      "color" = some (String.mk
        ((pySplit "K9 Free size 2 Blue".data).getD 4 [])) :=
  C7_free_size_shift "SKU Size Qty Color Order No.\nK9 Free size 2 Blue".data
    "K9 Free size 2 Blue".data (by decide) (by decide) (by decide)
    (by decide) (by decide)

/- ============ claim C2 ============ -/

set_option maxRecDepth 8192 in
/-- C2 counterexample: on the spec's concrete scenario text the extracted
customer is the start-marker line Customer Address, not Ravi Kumar.  The
block returned by find_block starts at the start marker itself, the marker
line survives the noise filters, and the name-inference loop accepts it as
a short line containing letters before ever reaching Ravi Kumar. -/
theorem C2_counterexample :
    rget (extract_from_text
        "Purchase Order No. 123456789012\nOrder Date 12/01/2024\nCustomer Address\nRavi Kumar\n123 MG Road\n560001\nIf undelivered call us\nDescription\nCotton T-Shirt 610910 2 Rs.499.00\nRs.499.00")
      "customer" = some "Customer Address"
    ∧ rget (extract_from_text
        "Purchase Order No. 123456789012\nOrder Date 12/01/2024\nCustomer Address\nRavi Kumar\n123 MG Road\n560001\nIf undelivered call us\nDescription\nCotton T-Shirt 610910 2 Rs.499.00\nRs.499.00")
      "customer" ≠ some "Ravi Kumar" := by
  refine ⟨by decide, by decide⟩

set_option maxRecDepth 8192 in
/-- C2 amended: on the concrete scenario text the extraction yields
purchase_order_no 123456789012, order_date 12/01/2024, product
Cotton T-Shirt, hsn 610910, qty 2, gross_amount 499.00 and total_amount
499.00 as claimed, and an address containing 123 MG Road 560001 (namely
Ravi Kumar 123 MG Road 560001, the name line ending up inside the address);
but customer is Customer Address - the marker line - not Ravi Kumar.  The
theorem states the full resulting record. -/
theorem C2_scenario_record :
    extract_from_text
        "Purchase Order No. 123456789012\nOrder Date 12/01/2024\nCustomer Address\nRavi Kumar\n123 MG Road\n560001\nIf undelivered call us\nDescription\nCotton T-Shirt 610910 2 Rs.499.00\nRs.499.00"
      = [("customer", "Customer Address"),
         ("address", "Ravi Kumar 123 MG Road 560001"),
         ("purchase_order_no", "123456789012"),
         ("order_date", "12/01/2024"),
         ("product", "Cotton T-Shirt"),
         ("hsn", "610910"),
         ("qty", "2"),
         ("gross_amount", "499.00"),
         ("total_amount", "499.00"),
         ("invoice_no", "NA"),
         ("invoice_date", "NA"),
         ("sku", "NA"),
         ("size", "NA"),
         ("color", "NA"),
         ("added_at", "NA")] := by
  decide

end AnalyzeYourData
